import Mathlib

/-!
Shallow embedding of the VelvetBot repository (a Discord community bot) for
specification checking.  The embedding covers:

* the streaming cog (src/velvetbot/cogs/streaming.py): the Twitch / YouTube
  polling loops, the in-memory live-stream tracking dictionary, and the
  Twitch OAuth token getter;
* the moderation cog (src/velvetbot/cogs/moderation.py): warn / kick / ban /
  mute / purge handlers, the mute duration parser and the rank check;
* the database layer (src/velvetbot/database.py): the add_xp operation and
  the fresh User defaults;
* the engagement cog (src/velvetbot/cogs/engagement.py) and the XP constants
  from src/velvetbot/config.py.

Python dictionaries are modelled as association lists (insertion order
preserved, keys unique by construction of the operations used), datetimes as
natural numbers, and the side effects of a command handler as an explicit
list of effect descriptions in program order.
-/

namespace VelvetBot

/-! ### Streaming cog: data carried by the external API responses -/

/-- One entry of the Twitch helix "get streams" response, restricted to the
fields the streaming cog reads. -/
structure TwitchStream where
  id : String
  user_login : String
  title : String
  game_name : String
  thumbnail_url : String
  deriving DecidableEq, Repr

/-- One item of the YouTube "live search" response, restricted to the fields
the streaming cog reads. -/
structure YTVideo where
  videoId : String
  channelTitle : String
  title : String
  thumbUrl : String
  deriving DecidableEq, Repr

/-- A value stored in the self.live_streams dictionary: the Twitch loop
stores the raw stream object, the YouTube loop stores the raw video
object. -/
inductive TrackedVal where
  | twitch (s : TwitchStream)
  | yt (v : YTVideo)
  deriving DecidableEq, Repr

/-- Model of Python v.get("user_login"): present for a stored Twitch stream
object, absent (None) for a stored YouTube video object. -/
def TrackedVal.userLogin : TrackedVal → Option String
  | .twitch s => some s.user_login
  | .yt _ => none

/-- The self.live_streams dictionary, modelled as an association list from
session key to the stored API object (Python dict preserves insertion
order; new keys are appended). -/
abbrev LiveStreams := List (String × TrackedVal)

/-- Arguments of one send_stream_notification call. -/
structure Notification where
  platform : String
  channel : String
  title : String
  game : String
  thumbnail : String
  url : String
  deriving DecidableEq, Repr

/-- Notification built by check_twitch_streams for a live stream, with the
thumbnail size placeholders substituted as in the source. -/
def mkTwitchNotification (channel : String) (s : TwitchStream) : Notification :=
  { platform := "twitch"
    channel := channel
    title := s.title
    game := s.game_name
    thumbnail := (s.thumbnail_url.replace "\x7bwidth\x7d" "1280").replace "\x7bheight\x7d" "720"
    url := "https://twitch.tv/" ++ channel }

/-- Notification built by check_youtube_streams for a live video. -/
def mkYouTubeNotification (v : YTVideo) : Notification :=
  { platform := "youtube"
    channel := v.channelTitle
    title := v.title
    game := "Live Stream"
    thumbnail := v.thumbUrl
    url := "https://youtube.com/watch?v=" ++ v.videoId }

/-- Body of one channel's check inside check_twitch_streams.  The response is
none for a non-200 HTTP status and otherwise carries the data list of the
JSON body.  Returns the updated live_streams dictionary together with the
notifications sent for this channel (in order). -/
def checkTwitchChannel (ls : LiveStreams) (channel : String)
    (resp : Option (List TwitchStream)) : LiveStreams × List Notification :=
  match resp with
  | none => (ls, [])
  | some streams =>
    match streams with
    | stream :: _ =>
      if (ls.lookup stream.id).isSome then
        (ls, [])
      else
        (ls ++ [(stream.id, TrackedVal.twitch stream)], [mkTwitchNotification channel stream])
    | [] =>
      (ls.filter (fun p => p.2.userLogin != some channel), [])

/-- Body of one channel's check inside check_youtube_streams.  The session
key is the fixed text yt_ followed by the video id; there is no not-live
cleanup branch in the source. -/
def checkYouTubeChannel (ls : LiveStreams)
    (resp : Option (List YTVideo)) : LiveStreams × List Notification :=
  match resp with
  | none => (ls, [])
  | some items =>
    match items with
    | video :: _ =>
      if (ls.lookup ("yt_" ++ video.videoId)).isSome then
        (ls, [])
      else
        (ls ++ [("yt_" ++ video.videoId, TrackedVal.yt video)], [mkYouTubeNotification video])
    | [] => (ls, [])

/-- Repeated Twitch poll ticks, each reporting the same stream still live for
the given channel.  Returns the final dictionary and the total number of
notifications sent across the ticks. -/
def iterTwitchLive (channel : String) (stream : TwitchStream) : Nat → LiveStreams → LiveStreams × Nat
  | 0, ls => (ls, 0)
  | n + 1, ls =>
    let step := checkTwitchChannel ls channel (some [stream])
    let rest := iterTwitchLive channel stream n step.1
    (rest.1, step.2.length + rest.2)

/-- Repeated YouTube poll ticks, each reporting the same video still live.
Returns the final dictionary and the total number of notifications sent. -/
def iterYouTubeLive (video : YTVideo) : Nat → LiveStreams → LiveStreams × Nat
  | 0, ls => (ls, 0)
  | n + 1, ls =>
    let step := checkYouTubeChannel ls (some [video])
    let rest := iterYouTubeLive video n step.1
    (rest.1, step.2.length + rest.2)

/-! ### Streaming cog: Twitch OAuth token state -/

/-- Token-related fields of the Streaming cog instance.  Both start as None
in __init__; times are modelled as naturals. -/
structure TokenState where
  twitch_token : Option String
  twitch_token_expires : Option Nat
  deriving DecidableEq, Repr

/-- Result of one get_twitch_token call: the updated state, the returned
token, and whether an HTTP token request was issued during the call. -/
structure TokenCallResult where
  state : TokenState
  returned : Option String
  httpRequested : Bool
  deriving DecidableEq, Repr

/-- Model of Streaming.get_twitch_token.  The cached token is returned when
both fields are set and now is before the stored expiry; otherwise an HTTP
token request is issued, and on success (resp = some token) the token field
is updated and the token returned.  Note that the source never assigns
twitch_token_expires. -/
def get_twitch_token (st : TokenState) (now : Nat) (resp : Option String) : TokenCallResult :=
  match st.twitch_token, st.twitch_token_expires with
  | some tok, some exp =>
    if now < exp then
      ⟨st, some tok, false⟩
    else
      match resp with
      | some newTok => ⟨{ st with twitch_token := some newTok }, some newTok, true⟩
      | none => ⟨st, none, true⟩
  | _, _ =>
    match resp with
    | some newTok => ⟨{ st with twitch_token := some newTok }, some newTok, true⟩
    | none => ⟨st, none, true⟩

/-- The cog's initial token state from Streaming.__init__. -/
def initialTokenState : TokenState := ⟨none, none⟩

/-! ### Moderation cog: the mute duration parser

The source runs re.match of the pattern (\d+)([smhd]) against
duration.lower().  re.match anchors at the start of the string, the digit
run is greedy, and since the unit class never matches a digit, backtracking
a shorter digit run always places a digit where the unit must be; hence the
regex matches exactly when the maximal leading digit run is nonempty and
the character right after it is one of s, m, h, d, in which case group(1)
is that maximal run and group(2) that character.  The functions below embed
this behaviour directly. -/

/-- Split a character list into its maximal leading run of decimal digits
and the remainder. -/
def takeDigits : List Char → List Char × List Char
  | [] => ([], [])
  | c :: cs =>
    if c.isDigit then
      let r := takeDigits cs
      (c :: r.1, r.2)
    else
      ([], c :: cs)

/-- Numeric value of a decimal digit string, as computed by Python int(). -/
def digitsVal (ds : List Char) : Nat :=
  ds.foldl (fun acc c => acc * 10 + (c.toNat - 48)) 0

/-- The time_units dictionary of the mute handler. -/
def time_units : Char → Option Nat
  | 's' => some 1
  | 'm' => some 60
  | 'h' => some 3600
  | 'd' => some 86400
  | _ => none

/-- Duration parsing step of the mute handler: lowercase the token, match
the prefix pattern (\d+)([smhd]), and on success return amount times the
unit's seconds; none models the no-match early return. -/
def parse_duration (duration : String) : Option Nat :=
  match takeDigits (duration.toList.map Char.toLower) with
  | ([], _) => none
  | (_, []) => none
  | (ds, u :: _) =>
    match time_units u with
    | some k => some (digitsVal ds * k)
    | none => none

/-! ### Moderation cog: command handlers as effect traces -/

/-- Observable side effects a moderation handler can perform, in program
order.  sendMessage and sendEmbed are replies in the invoking channel,
dmTarget is the best-effort direct message, kickMember / banMember /
timeoutMember are the platform-side actions, addWarning is the database
write performed by warn, and logAction models the _log_action helper (its
database part, log_mod_action, is a pass stub in the source, so logAction
performs no persistence). -/
inductive Effect where
  | sendMessage (text : String)
  | sendEmbed (title : String)
  | dmTarget
  | kickMember
  | banMember
  | timeoutMember (seconds : Nat)
  | addWarning
  | logAction (action : String)
  deriving DecidableEq, Repr

/-- Platform-side actions among the effects: kick, ban, timeout. -/
def Effect.isPlatformAction : Effect → Bool
  | .kickMember => true
  | .banMember => true
  | .timeoutMember _ => true
  | _ => false

/-- Persistence writes among the effects: only the warning record insert
(log_mod_action is a pass stub in the source). -/
def Effect.isPersistWrite : Effect → Bool
  | .addWarning => true
  | _ => false

/-- The warn handler.  Role hierarchy positions are modelled as naturals;
the handler refuses when the target's top role is greater than or equal to
the invoker's, otherwise writes the warning (when a database is attached),
replies, DMs the target, and logs. -/
def warnCmd (hasDb : Bool) (invokerTop targetTop : Nat) : List Effect :=
  if targetTop ≥ invokerTop then
    [Effect.sendMessage "❌ You cannot warn someone with equal or higher role."]
  else
    (if hasDb then [Effect.addWarning] else []) ++
      [Effect.sendEmbed "Member Warned", Effect.dmTarget, Effect.logAction "WARN"]

/-- The kick handler: refuse on the rank check, otherwise DM, kick, reply,
log. -/
def kickCmd (invokerTop targetTop : Nat) : List Effect :=
  if targetTop ≥ invokerTop then
    [Effect.sendMessage "❌ You cannot kick someone with equal or higher role."]
  else
    [Effect.dmTarget, Effect.kickMember, Effect.sendEmbed "Member Kicked", Effect.logAction "KICK"]

/-- The ban handler: refuse on the rank check, otherwise DM, ban, reply,
log. -/
def banCmd (invokerTop targetTop : Nat) : List Effect :=
  if targetTop ≥ invokerTop then
    [Effect.sendMessage "❌ You cannot ban someone with equal or higher role."]
  else
    [Effect.dmTarget, Effect.banMember, Effect.sendEmbed "Member Banned", Effect.logAction "BAN"]

/-- The mute handler: refuse on the rank check; reject an unparseable
duration; reject a parsed duration above the 28-day maximum; otherwise
apply the timeout, reply and log. -/
def muteCmd (invokerTop targetTop : Nat) (duration : String) : List Effect :=
  if targetTop ≥ invokerTop then
    [Effect.sendMessage "❌ You cannot mute someone with equal or higher role."]
  else
    match parse_duration duration with
    | none => [Effect.sendMessage "❌ Invalid duration. Use format: 10m, 1h, 1d"]
    | some seconds =>
      if seconds > 28 * 86400 then
        [Effect.sendMessage "❌ Maximum timeout is 28 days."]
      else
        [Effect.timeoutMember seconds, Effect.sendEmbed "Member Muted", Effect.logAction "MUTE"]

/-- Clamping step of the purge handler: amounts above 100 are reduced to
100. -/
def purge_clamp (amount : Int) : Int :=
  if amount > 100 then 100 else amount

/-- The purge deletion: ctx.channel.purge(limit=amount+1) deletes up to
limit messages starting from the most recent.  The channel history is
modelled as a list of message ids, most recent first, whose head is the
invoking command message. -/
def purgeRun (amount : Int) (history : List Nat) : List Nat :=
  history.take (purge_clamp amount + 1).toNat

/-! ### Database layer: users and add_xp -/

/-- Mutable fields of a User row that add_xp touches, with times as
naturals. -/
structure UserRec where
  xp : Int
  level : Int
  messages : Nat
  last_xp : Nat
  deriving DecidableEq, Repr

/-- Column defaults of a freshly created User row: xp 0, level 1,
messages 0. -/
def freshUser : UserRec := { xp := 0, level := 1, messages := 0, last_xp := 0 }

/-- The users table: the stored rows, keyed by (user_id, guild_id). -/
abbrev UsersTable := List ((Nat × Nat) × UserRec)

/-- Model of Database.get_or_create_user.  It opens a session of its own,
selects the row, and when the row is absent inserts a fresh one and
commits inside that same session — so the insert is persisted.  The
async-with block closes that session on return, which detaches the
returned instance from it (expire_on_commit=False keeps the attribute
values readable). -/
def get_or_create_user (db : UsersTable) (uid gid : Nat) : UsersTable × UserRec :=
  match db.lookup (uid, gid) with
  | some u => (db, u)
  | none => (db ++ [((uid, gid), freshUser)], freshUser)

/-- Observable outcome of one add_xp call: the stored table afterwards and
the returned (xp, level, leveled_up) tuple. -/
structure AddXpOutcome where
  db : UsersTable
  returned_xp : Int
  returned_level : Int
  leveled_up : Bool
  deriving DecidableEq, Repr

/-- Model of Database.add_xp.  The method opens a session, fetches the row
through get_or_create_user (which uses, commits and closes its own
separate session), mutates the now-detached instance in memory
(xp += amount, messages += 1, last_xp stamped), recomputes the level as
xp // 100 + 1 (Python floor division, hence Int.fdiv), commits its own
session, and returns (xp, level, leveled_up).  The committed session never
contained the instance, so the commit flushes no UPDATE: the stored table
is exactly what get_or_create_user left behind, and the mutation survives
only in the returned tuple. -/
def add_xp (db : UsersTable) (uid gid : Nat) (amount : Int) : AddXpOutcome :=
  let r := get_or_create_user db uid gid
  let user := r.2
  let old_level := user.level
  let xp2 := user.xp + amount
  let new_level := Int.fdiv xp2 100 + 1
  let leveled_up := decide (old_level < new_level)
  { db := r.1
    returned_xp := xp2
    returned_level := new_level
    leveled_up := leveled_up }

/-! ### Engagement cog and XP configuration -/

/-- Config.XP_PER_MESSAGE from src/velvetbot/config.py. -/
def XP_PER_MESSAGE : Nat := 15

/-- Config.XP_COOLDOWN (seconds) from src/velvetbot/config.py. -/
def XP_COOLDOWN : Nat := 60

/-- XP rows of the users table keyed by (user id, guild id). -/
abbrev XpTable := List ((Nat × Nat) × UserRec)

/-- Events the chat SDK can dispatch to a cog, restricted to what matters
for the engagement feature: the ready event and an inbound message with its
author-is-bot flag, guild (none outside a guild) and author id. -/
inductive BotEvent where
  | ready
  | message (authorIsBot : Bool) (guildId : Option Nat) (authorId : Nat)
  deriving DecidableEq, Repr

/-- Listener methods defined by the Engagement cog in the source: exactly
one, on_ready. -/
def engagementListenerNames : List String := ["on_ready"]

/-- Event handling of the Engagement cog as written: on_ready has body
pass, and the cog defines no on_message listener, so the SDK dispatches a
message event to no handler in this cog; either way the XP table is left
untouched. -/
def engagementHandleEvent : BotEvent → XpTable → XpTable
  | BotEvent.ready, st => st
  | BotEvent.message _ _ _, st => st

/-! ### Helper lemmas -/

/-- Lowercasing fixes decimal digits. -/
theorem toLower_of_isDigit (c : Char) (h : c.isDigit = true) : c.toLower = c := by
  simp [Char.isDigit, UInt32.le_def, BitVec.le_def] at h
  simp only [Char.toLower, Char.toNat, UInt32.toNat]
  rw [if_neg]
  omega

/-- Lowercasing never turns a non-digit into a digit: toLower only moves
the range 65-90 to 97-122, which is disjoint from the digit range. -/
theorem toLower_isDigit_false (c : Char) (h : c.isDigit = false) :
    c.toLower.isDigit = false := by
  simp only [Char.toLower]
  split
  · rename_i hc
    have hv : (c.toNat + 32).isValidChar := Or.inl (by omega)
    rw [Char.ofNat, dif_pos hv]
    simp only [Char.isDigit, Bool.and_eq_false_iff, decide_eq_false_iff_not, UInt32.le_def,
      BitVec.le_def]
    right
    show ¬ c.toNat + 32 ≤ 57
    omega
  · exact h

/-- Lowercasing fixes a string of decimal digits. -/
theorem map_toLower_of_digits (ds : List Char) (h : ∀ c ∈ ds, c.isDigit = true) :
    ds.map Char.toLower = ds := by
  induction ds with
  | nil => rfl
  | cons c cs ih =>
    simp only [List.map_cons, List.cons.injEq]
    exact ⟨toLower_of_isDigit c (h c (by simp)), ih fun x hx => h x (by simp [hx])⟩

/-- takeDigits splits a digit run followed by a non-digit exactly there. -/
theorem takeDigits_append_nondigit (ds : List Char) (u : Char) (rest : List Char)
    (hds : ∀ c ∈ ds, c.isDigit = true) (hu : u.isDigit = false) :
    takeDigits (ds ++ u :: rest) = (ds, u :: rest) := by
  induction ds with
  | nil => simp [takeDigits, hu]
  | cons c cs ih =>
    have hc : c.isDigit = true := hds c (by simp)
    simp only [List.cons_append, takeDigits, hc, if_true, List.append_eq]
    rw [ih fun x hx => hds x (by simp [hx])]

/-- takeDigits consumes an all-digit list whole. -/
theorem takeDigits_of_digits (ds : List Char) (hds : ∀ c ∈ ds, c.isDigit = true) :
    takeDigits ds = (ds, []) := by
  induction ds with
  | nil => rfl
  | cons c cs ih =>
    have hc : c.isDigit = true := hds c (by simp)
    simp only [takeDigits, hc, if_true]
    rw [ih fun x hx => hds x (by simp [hx])]

/-- time_units succeeds only on the four unit characters. -/
theorem time_units_cases (u : Char) (k : Nat) (h : time_units u = some k) :
    (u = 's' ∧ k = 1) ∨ (u = 'm' ∧ k = 60) ∨ (u = 'h' ∧ k = 3600) ∨ (u = 'd' ∧ k = 86400) := by
  unfold time_units at h
  split at h <;> simp_all

/-- Acceptance of the duration parser on a token made of a nonempty digit
run, a character whose lowercase form is a valid unit, and an arbitrary
tail. -/
theorem parse_duration_of_parts (ds : List Char) (u : Char) (k : Nat) (rest : List Char)
    (hne : ds ≠ []) (hds : ∀ c ∈ ds, c.isDigit = true)
    (hu : time_units u.toLower = some k) :
    parse_duration (String.mk (ds ++ u :: rest)) = some (digitsVal ds * k) := by
  have hund : (u.toLower).isDigit = false := by
    rcases time_units_cases u.toLower k hu with ⟨he, _⟩ | ⟨he, _⟩ | ⟨he, _⟩ | ⟨he, _⟩ <;>
      rw [he] <;> decide
  have hmap : (ds ++ u :: rest).map Char.toLower =
      ds ++ u.toLower :: rest.map Char.toLower := by
    rw [List.map_append, map_toLower_of_digits ds hds, List.map_cons]
  have htake : takeDigits ((ds ++ u :: rest).map Char.toLower) =
      (ds, u.toLower :: rest.map Char.toLower) := by
    rw [hmap]
    exact takeDigits_append_nondigit ds _ _ hds hund
  obtain ⟨c, cs, rfl⟩ : ∃ c cs, ds = c :: cs := by
    cases ds with
    | nil => exact absurd rfl hne
    | cons c cs => exact ⟨c, cs, rfl⟩
  simp only [parse_duration, String.toList, htake, hu]

/-- Rejection of the duration parser on a token whose maximal leading
digit run is followed by a character that is not a unit letter (nor a
digit): the regex prefix cannot match there. -/
theorem parse_duration_digits_nonunit (ds : List Char) (u : Char) (rest : List Char)
    (hds : ∀ c ∈ ds, c.isDigit = true) (hu : u.isDigit = false)
    (hunit : time_units u.toLower = none) :
    parse_duration (String.mk (ds ++ u :: rest)) = none := by
  have hund : (u.toLower).isDigit = false := toLower_isDigit_false u hu
  have hmap : (ds ++ u :: rest).map Char.toLower =
      ds ++ u.toLower :: rest.map Char.toLower := by
    rw [List.map_append, map_toLower_of_digits ds hds, List.map_cons]
  have htake : takeDigits ((ds ++ u :: rest).map Char.toLower) =
      (ds, u.toLower :: rest.map Char.toLower) := by
    rw [hmap]
    exact takeDigits_append_nondigit ds _ _ hds hund
  cases ds with
  | nil => simp only [parse_duration, String.toList, htake]
  | cons c cs => simp only [parse_duration, String.toList, htake, hunit]

/-- Rejection of the duration parser on an all-digit token (no unit
follows the digit run). -/
theorem parse_duration_all_digits (ds : List Char) (hds : ∀ c ∈ ds, c.isDigit = true) :
    parse_duration (String.mk ds) = none := by
  have htake : takeDigits (ds.map Char.toLower) = (ds, []) := by
    rw [map_toLower_of_digits ds hds]
    exact takeDigits_of_digits ds hds
  cases ds with
  | nil => rfl
  | cons c cs => simp only [parse_duration, String.toList, htake]

/-- Rejection of the duration parser on a token that does not start with a
digit. -/
theorem parse_duration_nondigit_head (c : Char) (cs : List Char)
    (h : (c.toLower).isDigit = false) :
    parse_duration (String.mk (c :: cs)) = none := by
  simp [parse_duration, String.toList, takeDigits, h]

/-- Appending a binding for a key makes lookup of that key succeed. -/
theorem lookup_append_self {α β : Type} [BEq α] [LawfulBEq α] (k : α) (v : β)
    (ls : List (α × β)) : (List.lookup k (ls ++ [(k, v)])).isSome = true := by
  induction ls with
  | nil => simp [List.lookup]
  | cons p t ih =>
    obtain ⟨a, b⟩ := p
    simp only [List.cons_append, List.lookup]
    split
    · rfl
    · exact ih

/-- While a Twitch session key stays tracked, repeated live ticks change
nothing and send nothing. -/
theorem iterTwitchLive_tracked (channel : String) (stream : TwitchStream) (n : Nat)
    (ls : LiveStreams) (h : (ls.lookup stream.id).isSome = true) :
    iterTwitchLive channel stream n ls = (ls, 0) := by
  induction n with
  | zero => rfl
  | succ m ih => simp [iterTwitchLive, checkTwitchChannel, h, ih]

/-- While a YouTube session key stays tracked, repeated live ticks change
nothing and send nothing. -/
theorem iterYouTubeLive_tracked (video : YTVideo) (n : Nat)
    (ls : LiveStreams) (h : (ls.lookup ("yt_" ++ video.videoId)).isSome = true) :
    iterYouTubeLive video n ls = (ls, 0) := by
  induction n with
  | zero => rfl
  | succ m ih => simp [iterYouTubeLive, checkYouTubeChannel, h, ih]

/-! ### Claim theorems -/

/-- C1: in each polling loop, a poll tick that reports a session key
(a Twitch stream id, or yt_ plus a YouTube video id) already in the
tracked set sends zero notifications and leaves the set unchanged, while a
tick reporting an untracked key inserts it and sends exactly one
notification; consequently over any number of consecutive ticks that keep
reporting the same key live, the total notification count is zero if the
key was already tracked and exactly one otherwise. -/
theorem checkStreams_session_dedup (ls : LiveStreams) (channel : String)
    (stream : TwitchStream) (rest : List TwitchStream)
    (video : YTVideo) (vrest : List YTVideo) (n : Nat) :
    (checkTwitchChannel ls channel (some (stream :: rest)) =
      if (ls.lookup stream.id).isSome then (ls, [])
      else (ls ++ [(stream.id, TrackedVal.twitch stream)], [mkTwitchNotification channel stream])) ∧
    (checkYouTubeChannel ls (some (video :: vrest)) =
      if (ls.lookup ("yt_" ++ video.videoId)).isSome then (ls, [])
      else (ls ++ [("yt_" ++ video.videoId, TrackedVal.yt video)], [mkYouTubeNotification video])) ∧
    ((iterTwitchLive channel stream n ls).2 =
      if (ls.lookup stream.id).isSome then 0 else min n 1) ∧
    ((iterYouTubeLive video n ls).2 =
      if (ls.lookup ("yt_" ++ video.videoId)).isSome then 0 else min n 1) := by
  refine ⟨?_, ?_, ?_, ?_⟩
  · by_cases h : (ls.lookup stream.id).isSome = true <;> simp [checkTwitchChannel, h]
  · by_cases h : (ls.lookup ("yt_" ++ video.videoId)).isSome = true <;>
      simp [checkYouTubeChannel, h]
  · cases n with
    | zero => simp [iterTwitchLive]
    | succ m =>
      by_cases h : (ls.lookup stream.id).isSome = true
      · simp [iterTwitchLive_tracked channel stream (m + 1) ls h, h]
      · have hstep : checkTwitchChannel ls channel (some [stream]) =
            (ls ++ [(stream.id, TrackedVal.twitch stream)], [mkTwitchNotification channel stream]) := by
          simp [checkTwitchChannel, h]
        simp [iterTwitchLive, hstep,
          iterTwitchLive_tracked channel stream m _ (lookup_append_self stream.id _ ls), h]
  · cases n with
    | zero => simp [iterYouTubeLive]
    | succ m =>
      by_cases h : (ls.lookup ("yt_" ++ video.videoId)).isSome = true
      · simp [iterYouTubeLive_tracked video (m + 1) ls h, h]
      · have hstep : checkYouTubeChannel ls (some [video]) =
            (ls ++ [("yt_" ++ video.videoId, TrackedVal.yt video)], [mkYouTubeNotification video]) := by
          simp [checkYouTubeChannel, h]
        simp [iterYouTubeLive, hstep,
          iterYouTubeLive_tracked video m _ (lookup_append_self _ _ ls), h]

/-- C2: when a Twitch poll tick reports no active stream for a configured
channel, every tracked entry whose stored user_login matches that channel
is removed (the tick is exactly the dictionary filter and sends nothing),
and a later tick reporting the channel live with a session id not in the
resulting set sends a new notification. -/
theorem checkTwitch_notlive_removal_rearm (ls : LiveStreams) (channel : String) :
    (checkTwitchChannel ls channel (some []) =
      (ls.filter (fun p => p.2.userLogin != some channel), [])) ∧
    (∀ p ∈ (checkTwitchChannel ls channel (some [])).1, p.2.userLogin ≠ some channel) ∧
    (∀ s : TwitchStream,
      ((checkTwitchChannel ls channel (some [])).1.lookup s.id) = none →
      checkTwitchChannel (checkTwitchChannel ls channel (some [])).1 channel (some [s]) =
        ((checkTwitchChannel ls channel (some [])).1 ++ [(s.id, TrackedVal.twitch s)],
         [mkTwitchNotification channel s])) := by
  refine ⟨rfl, ?_, ?_⟩
  · intro p hp
    have hmem : p.2.userLogin != some channel := (List.mem_filter.mp hp).2
    simpa using hmem
  · intro s hs
    generalize hgen : (checkTwitchChannel ls channel (some [])).1 = ls2 at hs ⊢
    simp [checkTwitchChannel, hs]

/-- C2 witness: a tracked session for channel chan is dropped by a
not-live tick, after which a live report with a fresh id is announced. -/
theorem checkTwitch_notlive_removal_rearm_witness :
    checkTwitchChannel
        (checkTwitchChannel [("s1", TrackedVal.twitch ⟨"s1", "chan", "T", "G", "u"⟩)]
          "chan" (some [])).1
        "chan" (some [⟨"s2", "chan", "T2", "G2", "u2"⟩]) =
      ((checkTwitchChannel [("s1", TrackedVal.twitch ⟨"s1", "chan", "T", "G", "u"⟩)]
          "chan" (some [])).1 ++ [("s2", TrackedVal.twitch ⟨"s2", "chan", "T2", "G2", "u2"⟩)],
       [mkTwitchNotification "chan" ⟨"s2", "chan", "T2", "G2", "u2"⟩]) :=
  (checkTwitch_notlive_removal_rearm
    [("s1", TrackedVal.twitch ⟨"s1", "chan", "T", "G", "u"⟩)] "chan").2.2
    ⟨"s2", "chan", "T2", "G2", "u2"⟩ (by decide)

/-- C3: contrary to the specification, get_twitch_token never caches.  The
first call from the initial state succeeds and stores the token but leaves
twitch_token_expires at None (the source never assigns it), so an
immediately following call issues a fresh HTTP token request; indeed no
call whatsoever modifies twitch_token_expires. -/
theorem get_twitch_token_refetches :
    (get_twitch_token initialTokenState 0 (some "tok")).returned = some "tok" ∧
    (get_twitch_token initialTokenState 0 (some "tok")).httpRequested = true ∧
    (get_twitch_token initialTokenState 0 (some "tok")).state = ⟨some "tok", none⟩ ∧
    (get_twitch_token (get_twitch_token initialTokenState 0 (some "tok")).state 1
        (some "tok2")).httpRequested = true ∧
    (∀ (st : TokenState) (now : Nat) (resp : Option String),
      (get_twitch_token st now resp).state.twitch_token_expires = st.twitch_token_expires) := by
  refine ⟨rfl, rfl, rfl, rfl, ?_⟩
  intro st now resp
  rcases st with ⟨tok, exp⟩
  cases tok <;> cases exp <;> cases resp <;>
    simp only [get_twitch_token] <;> first | rfl | (split <;> rfl)

/-- C4 counterexample: a 40d mute is not clamped to the 28-day maximum of
2419200 seconds; the handler replies with the maximum-timeout error and
applies no timeout at all. -/
theorem mute_no_clamp_counterexample :
    parse_duration "40d" = some 3456000 ∧
    muteCmd 2 1 "40d" = [Effect.sendMessage "❌ Maximum timeout is 28 days."] ∧
    Effect.timeoutMember 2419200 ∉ muteCmd 2 1 "40d" := by
  refine ⟨by decide, by decide, by decide⟩

/-- C4 (amended): for every mute invocation that passes the rank check and
whose duration token parses to more than 28 days, the command is rejected
with the maximum-timeout error message and no timeout of any length is
applied. -/
theorem mute_over_max_rejected (invokerTop targetTop : Nat) (duration : String) (s : Nat)
    (hrank : targetTop < invokerTop)
    (hp : parse_duration duration = some s) (hmax : s > 28 * 86400) :
    muteCmd invokerTop targetTop duration =
      [Effect.sendMessage "❌ Maximum timeout is 28 days."] ∧
    (∀ t : Nat, Effect.timeoutMember t ∉ muteCmd invokerTop targetTop duration) := by
  have hnotge : ¬ targetTop ≥ invokerTop := Nat.not_le.mpr hrank
  have hres : muteCmd invokerTop targetTop duration =
      [Effect.sendMessage "❌ Maximum timeout is 28 days."] := by
    simp [muteCmd, hnotge, hp, hmax]
  refine ⟨hres, ?_⟩
  intro t
  simp [hres]

/-- C4 witness: the amended statement evaluated on the 40d token. -/
theorem mute_over_max_rejected_witness :
    muteCmd 2 1 "40d" = [Effect.sendMessage "❌ Maximum timeout is 28 days."] :=
  (mute_over_max_rejected 2 1 "40d" 3456000 (by decide) (by decide) (by decide)).1

/-- C5: the duration parser maps 10m to 600 seconds and 1d to 86400, and
in general a nonempty digit run followed by a unit in s, m, h, d maps to
its value times 1, 60, 3600 or 86400; a token with no such form, like abc,
is rejected and the mute handler applies no timeout for it. -/
theorem parse_duration_mapping (invokerTop targetTop : Nat)
    (hrank : targetTop < invokerTop) :
    parse_duration "10m" = some 600 ∧
    parse_duration "1d" = some 86400 ∧
    time_units 's' = some 1 ∧
    time_units 'm' = some 60 ∧
    time_units 'h' = some 3600 ∧
    time_units 'd' = some 86400 ∧
    (∀ (ds : List Char) (u : Char) (k : Nat),
      ds ≠ [] → (∀ c ∈ ds, c.isDigit = true) → time_units u = some k →
      parse_duration (String.mk (ds ++ [u])) = some (digitsVal ds * k)) ∧
    parse_duration "abc" = none ∧
    muteCmd invokerTop targetTop "abc" =
      [Effect.sendMessage "❌ Invalid duration. Use format: 10m, 1h, 1d"] ∧
    (∀ t : Nat, Effect.timeoutMember t ∉ muteCmd invokerTop targetTop "abc") := by
  have hnotge : ¬ targetTop ≥ invokerTop := Nat.not_le.mpr hrank
  have habc : muteCmd invokerTop targetTop "abc" =
      [Effect.sendMessage "❌ Invalid duration. Use format: 10m, 1h, 1d"] := by
    simp [muteCmd, hnotge, show parse_duration "abc" = none from by decide]
  refine ⟨by decide, by decide, rfl, rfl, rfl, rfl, ?_, by decide, habc, ?_⟩
  · intro ds u k hne hds hu
    have hul : u.toLower = u := by
      rcases time_units_cases u k hu with ⟨rfl, _⟩ | ⟨rfl, _⟩ | ⟨rfl, _⟩ | ⟨rfl, _⟩ <;> decide
    exact parse_duration_of_parts ds u k [] hne hds (hul.symm ▸ hu)
  · intro t
    simp [habc]

/-- C5 witness: the general mapping at the token 10m (as characters) and
the rejection branch at concrete ranks. -/
theorem parse_duration_mapping_witness :
    parse_duration (String.mk (['1', '0'] ++ ['m'])) = some 600 ∧
    muteCmd 2 1 "abc" = [Effect.sendMessage "❌ Invalid duration. Use format: 10m, 1h, 1d"] := by
  have h := parse_duration_mapping 2 1 (by decide)
  refine ⟨?_, h.2.2.2.2.2.2.2.2.1⟩
  have hg := h.2.2.2.2.2.2.1 ['1', '0'] 'm' 60 (by decide) (by decide) (by decide)
  rw [hg]
  decide

/-- C6: whenever the target's top role is greater than or equal to the
invoker's, each of warn, kick, ban and mute replies with its refusal
message only: no kick, ban or timeout is performed and no warning record
is written. -/
theorem rank_check_refusal (hasDb : Bool) (invokerTop targetTop : Nat) (duration : String)
    (h : targetTop ≥ invokerTop) :
    warnCmd hasDb invokerTop targetTop =
      [Effect.sendMessage "❌ You cannot warn someone with equal or higher role."] ∧
    kickCmd invokerTop targetTop =
      [Effect.sendMessage "❌ You cannot kick someone with equal or higher role."] ∧
    banCmd invokerTop targetTop =
      [Effect.sendMessage "❌ You cannot ban someone with equal or higher role."] ∧
    muteCmd invokerTop targetTop duration =
      [Effect.sendMessage "❌ You cannot mute someone with equal or higher role."] ∧
    (∀ e : Effect,
      (e ∈ warnCmd hasDb invokerTop targetTop ∨ e ∈ kickCmd invokerTop targetTop ∨
        e ∈ banCmd invokerTop targetTop ∨ e ∈ muteCmd invokerTop targetTop duration) →
      e.isPlatformAction = false ∧ e.isPersistWrite = false) := by
  refine ⟨by simp [warnCmd, h], by simp [kickCmd, h], by simp [banCmd, h],
    by simp [muteCmd, h], ?_⟩
  intro e he
  rcases he with he | he | he | he <;>
    simp [warnCmd, kickCmd, banCmd, muteCmd, h] at he <;>
    simp [he, Effect.isPlatformAction, Effect.isPersistWrite]

/-- C6 witness: equal top roles are refused across all four commands. -/
theorem rank_check_refusal_witness :
    warnCmd true 3 3 =
      [Effect.sendMessage "❌ You cannot warn someone with equal or higher role."] ∧
    muteCmd 3 3 "10m" =
      [Effect.sendMessage "❌ You cannot mute someone with equal or higher role."] := by
  have h := rank_check_refusal true 3 3 "10m" (by decide)
  exact ⟨h.1, h.2.2.2.1⟩

/-- C7: the purge handler clamps the requested amount to at most 100 and
deletes the invoking command message (the most recent one) plus at most
the clamped count of prior messages; a request of 250 deletes at most 101
messages. -/
theorem purge_clamp_bound (amount : Int) (cmdMsg : Nat) (prior : List Nat) :
    purge_clamp amount ≤ 100 ∧
    (purgeRun amount (cmdMsg :: prior)).length ≤ (purge_clamp amount).toNat + 1 ∧
    (0 ≤ amount →
      purgeRun amount (cmdMsg :: prior) = cmdMsg :: prior.take (purge_clamp amount).toNat) ∧
    (purgeRun 250 (cmdMsg :: prior)).length ≤ 101 := by
  refine ⟨?_, ?_, ?_, ?_⟩
  · unfold purge_clamp
    split <;> omega
  · have h1 : (purgeRun amount (cmdMsg :: prior)).length ≤ (purge_clamp amount + 1).toNat :=
      List.length_take_le _ _
    omega
  · intro ha
    have hc : 0 ≤ purge_clamp amount := by
      unfold purge_clamp
      split <;> omega
    have h2 : (purge_clamp amount + 1).toNat = (purge_clamp amount).toNat + 1 := by omega
    simp [purgeRun, h2]
  · have h1 : (purgeRun 250 (cmdMsg :: prior)).length ≤ (purge_clamp 250 + 1).toNat :=
      List.length_take_le _ _
    have h2 : (purge_clamp (250 : Int) + 1).toNat = 101 := by decide
    omega

/-- C7 witness: a request of 250 over a short history deletes the command
message plus the whole history. -/
theorem purge_clamp_bound_witness :
    purgeRun 250 (0 :: [1, 2]) = 0 :: [1, 2].take (purge_clamp 250).toNat :=
  (purge_clamp_bound 250 0 [1, 2]).2.2.1 (by decide)

/-- C8: contrary to the specification, an XP award is never stored.
get_or_create_user persists only the row creation, inside its own session;
the instance it returns is detached once that session closes, so the
mutation performed by add_xp is invisible to the session add_xp commits
and no UPDATE reaches the users table.  The first three parts state this
in general: the stored table after an award is exactly what
get_or_create_user left, a second award over that table changes nothing,
and the returned level always equals returned xp // 100 + 1.  The
concrete parts evaluate the failing input: a fresh user awarded 100 xp is
reported as (xp 100, level 2, leveled up), but the stored row is the
fresh row (xp 0, level 1), and stays so after a further award. -/
theorem add_xp_not_persisted :
    (∀ (db : UsersTable) (uid gid : Nat) (amount : Int),
      (add_xp db uid gid amount).db = (get_or_create_user db uid gid).1) ∧
    (∀ (db : UsersTable) (uid gid : Nat) (amount : Int),
      (add_xp (get_or_create_user db uid gid).1 uid gid amount).db =
        (get_or_create_user db uid gid).1) ∧
    (∀ (db : UsersTable) (uid gid : Nat) (amount : Int),
      (add_xp db uid gid amount).returned_level =
        Int.fdiv (add_xp db uid gid amount).returned_xp 100 + 1) ∧
    (add_xp [] 42 1 100).returned_xp = 100 ∧
    (add_xp [] 42 1 100).returned_level = 2 ∧
    (add_xp [] 42 1 100).leveled_up = true ∧
    (add_xp [] 42 1 100).db = [((42, 1), freshUser)] ∧
    (add_xp (add_xp [] 42 1 100).db 42 1 100).db = [((42, 1), freshUser)] ∧
    freshUser.xp = 0 ∧ freshUser.level = 1 := by
  refine ⟨fun db uid gid amount => rfl, ?_, fun db uid gid amount => rfl,
    by decide, by decide, by decide, by decide, by decide, rfl, rfl⟩
  intro db uid gid amount
  have h1 : (add_xp (get_or_create_user db uid gid).1 uid gid amount).db =
      (get_or_create_user (get_or_create_user db uid gid).1 uid gid).1 := rfl
  rw [h1]
  cases hdb : List.lookup (uid, gid) db with
  | some u => simp [get_or_create_user, hdb]
  | none =>
    have hs : (List.lookup (uid, gid) (db ++ [((uid, gid), freshUser)])).isSome = true :=
      lookup_append_self (uid, gid) freshUser db
    rw [Option.isSome_iff_exists] at hs
    obtain ⟨v, hv⟩ := hs
    simp [get_or_create_user, hdb, hv]

/-- C9: contrary to the specification, no xp is awarded on inbound
messages.  The configuration declares 15 xp per message and a 60 second
cooldown, but the Engagement cog's only listener is on_ready, so
dispatching any message event (eligible or not) leaves the XP table
untouched; in particular an eligible message from user 42 in guild 1
awards nothing. -/
theorem engagement_no_xp_award :
    XP_PER_MESSAGE = 15 ∧ XP_COOLDOWN = 60 ∧
    engagementListenerNames = ["on_ready"] ∧
    (∀ (st : XpTable) (isBot : Bool) (g : Option Nat) (uid : Nat),
      engagementHandleEvent (BotEvent.message isBot g uid) st = st) ∧
    engagementHandleEvent (BotEvent.message false (some 1) 42) [((42, 1), freshUser)] =
      [((42, 1), freshUser)] :=
  ⟨rfl, rfl, rfl, fun _ _ _ _ => rfl, rfl⟩

/-- C10: acceptance of the mute duration token is decided solely by a
matching prefix.  Any token splits uniquely into its maximal leading digit
run and the remainder, and the four universal parts force the parser's
answer in every case: a nonempty digit run followed by a character whose
lowercase form is a unit letter is accepted as run value times unit
seconds with the whole tail ignored (10minutes means 600 seconds); a
token starting with a non-digit is rejected (m10); an all-digit token is
rejected (10); and a nonempty digit run followed by a non-digit that is
not a unit letter is rejected (5x). -/
theorem parse_duration_prefix_acceptance :
    parse_duration "10minutes" = some 600 ∧
    parse_duration "m10" = none ∧
    parse_duration "10" = none ∧
    parse_duration "5x" = none ∧
    (∀ (ds : List Char) (u : Char) (k : Nat) (rest : List Char),
      ds ≠ [] → (∀ c ∈ ds, c.isDigit = true) → time_units u.toLower = some k →
      parse_duration (String.mk (ds ++ u :: rest)) = some (digitsVal ds * k)) ∧
    (∀ (c : Char) (cs : List Char), c.isDigit = false →
      parse_duration (String.mk (c :: cs)) = none) ∧
    (∀ ds : List Char, (∀ c ∈ ds, c.isDigit = true) →
      parse_duration (String.mk ds) = none) ∧
    (∀ (ds : List Char) (u : Char) (rest : List Char),
      (∀ c ∈ ds, c.isDigit = true) → u.isDigit = false → time_units u.toLower = none →
      parse_duration (String.mk (ds ++ u :: rest)) = none) :=
  ⟨by decide, by decide, by decide, by decide,
    fun ds u k rest hne hds hu => parse_duration_of_parts ds u k rest hne hds hu,
    fun c cs h => parse_duration_nondigit_head c cs (toLower_isDigit_false c h),
    fun ds hds => parse_duration_all_digits ds hds,
    fun ds u rest hds hu hunit => parse_duration_digits_nonunit ds u rest hds hu hunit⟩

/-- C10 witness: prefix acceptance at 42Hx (uppercase unit, trailing
character ignored) and rejections at a non-digit head, an all-digit
token, and a digit run followed by a non-unit character. -/
theorem parse_duration_prefix_acceptance_witness :
    parse_duration (String.mk (['4', '2'] ++ 'H' :: ['x'])) = some 151200 ∧
    parse_duration (String.mk ('q' :: ['5'])) = none ∧
    parse_duration (String.mk ['7', '7']) = none ∧
    parse_duration (String.mk (['5'] ++ 'x' :: [])) = none := by
  have h := parse_duration_prefix_acceptance
  refine ⟨?_, h.2.2.2.2.2.1 'q' ['5'] (by decide),
    h.2.2.2.2.2.2.1 ['7', '7'] (by decide),
    h.2.2.2.2.2.2.2 ['5'] 'x' [] (by decide) (by decide) (by decide)⟩
  have hg := h.2.2.2.2.1 ['4', '2'] 'H' 3600 ['x'] (by decide) (by decide) (by decide)
  rw [hg]
  decide

end VelvetBot
